import Mathlib

/-!
# Verification of the vscode-zig error-bundle decoder and frame protocol client

A shallow embedding of `src/errorBundle.ts` (the `ErrorBundle` decoder and the
caret-line fragment of its renderer) and of the stdout data handler of
`zigServe` (the frame protocol client), together with proofs and refutations
of the specified properties.

Modelling conventions:
* JavaScript `Uint32Array` / `Uint8Array` buffers are `List Nat` of 32-bit
  words resp. bytes.
* A typed-array read `a[i]` that may be out of bounds is `l[i]?`
  (`Option Nat`); JS `undefined` is `none`.
* `TypedArray.subarray(begin, end)` clamps both bounds into `[0, length]`
  and interprets a negative `end` as `length + end`; this is `jsSubarray`.
* `String.prototype.repeat` throws a `RangeError` on a negative count; this
  is `jsRepeat` returning `none`.
* Decoded UTF-8 text is kept as its byte list (`toString("utf8")` is the
  identity on the byte content for the purposes of these claims).
-/

/-- `TypedArray.prototype.subarray(begin, end)`: `begin : Nat` (all call
sites pass non-negative starts), `end : Int` (a negative end counts from the
array's end, and the result is empty when the clamped end is below begin). -/
def jsSubarray (l : List Nat) (s : Nat) (e : Int) : List Nat :=
  let eClamped : Nat := if e < 0 then (e + l.length).toNat else e.toNat
  (l.take eClamped).drop s

/-- `TypedArray.prototype.indexOf(target, from)`: index of the first
occurrence of `target` at position `≥ from`, or `-1` when there is none. -/
def jsIndexOf (l : List Nat) (target : Nat) (start : Nat) : Int :=
  match (l.drop start).findIdx? (fun b => b == target) with
  | some k => ((start + k : Nat) : Int)
  | none => -1

/-- `String.prototype.repeat(count)`: `none` models the `RangeError` thrown
on a negative count. -/
def jsRepeat (c : Char) (count : Int) : Option String :=
  if count < 0 then none
  else some (String.mk (List.replicate count.toNat c))

/-- The two buffers of `ErrorBundle` (`errorBundle.ts`): `stringBytes` is a
byte array of null-terminated strings, `extra` a 32-bit word array holding
the record forest. -/
structure ErrorBundle where
  stringBytes : List Nat
  extra : List Nat
deriving DecidableEq, Repr

/-- The two-argument constructor: both parameters are optional and default
to empty buffers. -/
def ErrorBundle.new (stringBytes : Option (List Nat)) (extra : Option (List Nat)) : ErrorBundle :=
  { stringBytes := stringBytes.getD [], extra := extra.getD [] }

/-- Root list header: fields are reads of `extra[0..2]`, each possibly out
of bounds (JS `undefined`, here `none`). -/
structure ErrorMessageList where
  len : Option Nat
  start : Option Nat
  compileLogText : Option Nat
deriving DecidableEq, Repr

def ErrorBundle.getErrorMessageList (b : ErrorBundle) : ErrorMessageList :=
  { len := b.extra[0]?
    start := b.extra[1]?
    compileLogText := b.extra[2]? }

/-- `errorMessageCount`: 0 on an empty extra buffer, otherwise the root
list's `len`. When `extra` is nonempty, `len` is `extra[0]` and the `getD`
default is never used. -/
def ErrorBundle.errorMessageCount (b : ErrorBundle) : Nat :=
  if b.extra.length = 0 then 0 else (b.getErrorMessageList.len).getD 0

/-- `getMessages`: `extra.subarray(list.start, list.start + list.len)`.
When either operand is `undefined` the JS sum is `NaN` and `subarray`
yields an empty view. -/
def ErrorBundle.getMessages (b : ErrorBundle) : List Nat :=
  let list := b.getErrorMessageList
  match list.start, list.len with
  | some s, some l => jsSubarray b.extra s ((s + l : Nat) : Int)
  | _, _ => []

/-- An `ErrorMessage` record as decoded by `getErrorMessage`. -/
structure ErrorMessage where
  msg : Option Nat
  count : Option Nat
  srcLoc : Option Nat
  notesLen : Option Nat
deriving DecidableEq, Repr

/-- `getErrorMessage`: field projections at `index .. index+3`; the source's
`srcLoc !== 0 ? srcLoc : undefined` maps `0` to absent (`none`). -/
def ErrorBundle.getErrorMessage (b : ErrorBundle) (index : Nat) : ErrorMessage :=
  let srcLoc := b.extra[index + 2]?
  { msg := b.extra[index]?
    count := b.extra[index + 1]?
    srcLoc := if srcLoc = some 0 then none else srcLoc
    notesLen := b.extra[index + 3]? }

/-- A `SourceLocation` record as decoded by `getSourceLocation`. -/
structure SourceLocation where
  srcPath : Option Nat
  line : Option Nat
  column : Option Nat
  spanStart : Option Nat
  spanMain : Option Nat
  spanEnd : Option Nat
  sourceLine : Option Nat
  referenceTraceLen : Option Nat
deriving DecidableEq, Repr

/-- `getSourceLocation`: field projections at `index .. index+7`; the
source's `sourceLine !== 0 ? sourceLine : undefined` maps `0` to absent. -/
def ErrorBundle.getSourceLocation (b : ErrorBundle) (index : Nat) : SourceLocation :=
  let sourceLine := b.extra[index + 6]?
  { srcPath := b.extra[index]?
    line := b.extra[index + 1]?
    column := b.extra[index + 2]?
    spanStart := b.extra[index + 3]?
    spanMain := b.extra[index + 4]?
    spanEnd := b.extra[index + 5]?
    sourceLine := if sourceLine = some 0 then none else sourceLine
    referenceTraceLen := b.extra[index + 7]? }

/-- The union `ReferenceTraceNode | ReferenceTraceSentinel`. -/
inductive ReferenceTrace where
  | node (declName : Option Nat) (srcLoc : Option Nat)
  | sentinel (hiddenReferences : Nat)
deriving DecidableEq, Repr

/-- The `hiddenReferences` field when the trace is a sentinel. -/
def ReferenceTrace.hiddenCount : ReferenceTrace → Option Nat
  | .node _ _ => none
  | .sentinel n => some n

/-- `getReferenceTrace`: when the word at `index+1` is 0 the source returns
`{ hiddenReferences: srcLoc }`, i.e. the field is set to that word, which is
0 in this branch; otherwise a node of the two words. -/
def ErrorBundle.getReferenceTrace (b : ErrorBundle) (index : Nat) : ReferenceTrace :=
  let srcLoc := b.extra[index + 1]?
  if srcLoc = some 0 then
    .sentinel 0
  else
    .node b.extra[index]? srcLoc

/-- `getNotes`: `extra.subarray(index + 4, index + 4 + notesLen)`. When
`notesLen` is `undefined` the JS end bound is `NaN` and the view is empty. -/
def ErrorBundle.getNotes (b : ErrorBundle) (index : Nat) : List Nat :=
  match (b.getErrorMessage index).notesLen with
  | some notesLen => jsSubarray b.extra (index + 4) ((index + 4 + notesLen : Nat) : Int)
  | none => []

/-- `getReferenceTraces`: `extra.subarray(index + 8, index + 8 + referenceTraceLen)`;
an `undefined` count likewise yields an empty view. -/
def ErrorBundle.getReferenceTraces (b : ErrorBundle) (index : Nat) : List Nat :=
  match (b.getSourceLocation index).referenceTraceLen with
  | some referenceTraceLen => jsSubarray b.extra (index + 8) ((index + 8 + referenceTraceLen : Nat) : Int)
  | none => []

/-- `nullTerminatedString`: scan for the terminating zero byte from `index`
and return the bytes of the span (`indexOf` yields `-1` when no terminator
exists, which `subarray` interprets as `length - 1`). -/
def ErrorBundle.nullTerminatedString (b : ErrorBundle) (index : Nat) : List Nat :=
  let e := jsIndexOf b.stringBytes 0 index
  jsSubarray b.stringBytes index e

/-- `getCompileLogOutput`: `nullTerminatedString(rootList.compileLogText)`.
An `undefined` argument behaves exactly like 0 in both `indexOf` (default
fromIndex) and `subarray` (default begin), hence the `getD 0`. -/
def ErrorBundle.getCompileLogOutput (b : ErrorBundle) : List Nat :=
  b.nullTerminatedString ((b.getErrorMessageList.compileLogText).getD 0)

/-- The caret-line fragment of `renderErrorMessage` (`errorBundle.ts`
lines 144–153): `beforeCaret = spanMain - spanStart`,
`afterCaret = Math.min(0, spanEnd - spanMain - 1)`, then three `repeat`
calls; `none` models a thrown `RangeError`. -/
def renderCaretLine (column spanStart spanMain spanEnd : Nat) : Option String :=
  let beforeCaret : Int := (spanMain : Int) - (spanStart : Int)
  -- -1 since span.main includes the caret
  let afterCaret : Int := min 0 ((spanEnd : Int) - (spanMain : Int) - 1)
  match jsRepeat ' ' ((column : Int) - beforeCaret), jsRepeat '~' beforeCaret,
      jsRepeat '~' afterCaret with
  | some s1, some s2, some s3 => some (s1 ++ s2 ++ "^" ++ s3 ++ "\n")
  | _, _, _ => none

/-!
## The frame protocol client (`zigServe`'s stdout data handler)
-/

/-- `Buffer.readUInt32LE(off)`: the little-endian 32-bit word at byte
offset `off`; `none` models the `RangeError` thrown when fewer than 4 bytes
remain. -/
def readU32 (bytes : List Nat) (off : Nat) : Option Nat :=
  match bytes.drop off with
  | b0 :: b1 :: b2 :: b3 :: _ => some (b0 + 256 * b1 + 65536 * b2 + 16777216 * b3)
  | _ => none

/-- Little-endian byte serialization of a 32-bit value, as
`Buffer.writeUInt32LE` produces it. -/
def u32le (n : Nat) : List Nat :=
  [n % 256, n / 256 % 256, n / 65536 % 256, n / 16777216 % 256]

/-- One wire frame: `tag: u32le`, `length: u32le`, then `length` payload
bytes. -/
def encodeFrame (tag : Nat) (payload : List Nat) : List Nat :=
  u32le tag ++ u32le payload.length ++ payload

/-- The three distinct `reject(new Error(...))` sites of the data handler. -/
inductive RejectReason where
  | insufficientSize
  | dataMismatch
  | unexpectedTag (tag : Nat)
deriving DecidableEq, Repr

/-- How the session promise settles: `success` is
`resolve({success: true, path})` (path as UTF-8 bytes), `failure` is
`resolve({success: false, errorBundle})`, `rejected` is a `reject` call. -/
inductive Settle where
  | success (path : List Nat)
  | failure (bundle : ErrorBundle)
  | rejected (reason : RejectReason)
deriving DecidableEq, Repr

/-- The observable state of one protocol session: the retained
`dataBuffer`, the first settlement of the promise (later `resolve`/`reject`
calls are ignored), the sequence of `onProgress` payloads, and whether the
handler threw (an out-of-bounds `readUInt32LE`, which crashes the host). -/
structure ServeState where
  dataBuffer : List Nat
  settled : Option Settle
  progress : List (List Nat)
  threw : Bool
deriving DecidableEq, Repr

def initState : ServeState :=
  { dataBuffer := [], settled := none, progress := [], threw := false }

/-- A `resolve`/`reject` call: only the first settlement of the promise
takes effect. -/
def settle (st : ServeState) (s : Settle) : ServeState :=
  if st.settled.isNone then { st with settled := some s } else st

/-- The `switch (tag)` body of the data handler, applied after the buffer
bookkeeping. `data` is `dataBuffer.subarray(8, 8 + bytesLen)` (possibly
shorter than `bytesLen` when the buffer is incomplete). -/
def dispatchFrame (st : ServeState) (bytesLen : Nat) (tag : Nat) (data : List Nat) :
    ServeState :=
  match tag with
  | 0 => st -- zig_version: ignored
  | 1 => -- error_bundle
    if data.length < 8 then
      settle st (.rejected .insufficientSize)
    else
      let extraLen := (readU32 data 0).getD 0
      let stringBytesLen := (readU32 data 4).getD 0
      let errorBundleData := data.drop 8
      if bytesLen ≠ 8 + 4 * extraLen + stringBytesLen then
        settle st (.rejected .dataMismatch)
      else
        let stringBytes := errorBundleData.drop (4 * extraLen)
        let extraData := errorBundleData.take (4 * extraLen)
        match (List.range extraLen).mapM (fun i => readU32 extraData (4 * i)) with
        | some extra => settle st (.failure { stringBytes := stringBytes, extra := extra })
        | none => { st with threw := true } -- readUInt32LE past the end throws
  | 2 => -- progress: forwarded to onProgress
    { st with progress := st.progress ++ [data] }
  | 3 => -- emit_bin_path: first byte is the sub-tag, discarded
    settle st (.success (data.drop 1))
  | t => -- unexpected tag: reject and kill the child (kill is unobservable here)
    settle st (.rejected (.unexpectedTag t))

/-- One firing of the stdout `"data"` listener: append the chunk, and if at
least 8 header bytes are buffered, strip ONE frame-sized span (the payload
is taken as far as it goes, complete or not) and dispatch it. The source
has no loop: at most one frame is handled per chunk. -/
def handleData (st : ServeState) (chunk : List Nat) : ServeState :=
  if st.threw then st -- an uncaught throw ended the process; no further events
  else
    let buf := st.dataBuffer ++ chunk
    if 8 ≤ buf.length then
      let tag := (readU32 buf 0).getD 0 -- in bounds: buf holds ≥ 8 bytes
      let bytesLen := (readU32 buf 4).getD 0
      let data := (buf.drop 8).take bytesLen -- subarray(8, 8 + bytesLen) clamps
      dispatchFrame { st with dataBuffer := buf.drop (8 + bytesLen) } bytesLen tag data
    else
      { st with dataBuffer := buf }

/-- Feed a list of chunks to the handler, one `"data"` event each, starting
from the fresh session state. -/
def feedChunks (chunks : List (List Nat)) : ServeState :=
  chunks.foldl handleData initState

/-!
## Helper lemmas
-/

lemma jsSubarray_natCast (l : List Nat) (s n : Nat) :
    jsSubarray l s ((s + n : Nat) : Int) = (l.drop s).take n := by
  unfold jsSubarray
  rw [if_neg (by omega)]
  rw [Int.toNat_ofNat, List.drop_take]
  congr 1
  omega

lemma getNotes_eq (b : ErrorBundle) (i : Nat) :
    b.getNotes i = (b.extra.drop (i + 4)).take ((b.extra[i + 3]?).getD 0) := by
  have hn : (b.getErrorMessage i).notesLen = b.extra[i + 3]? := rfl
  unfold ErrorBundle.getNotes
  rw [hn]
  cases h : b.extra[i + 3]? with
  | none => simp
  | some n => simpa using jsSubarray_natCast b.extra (i + 4) n

lemma getReferenceTraces_eq (b : ErrorBundle) (i : Nat) :
    b.getReferenceTraces i = (b.extra.drop (i + 8)).take ((b.extra[i + 7]?).getD 0) := by
  have hn : (b.getSourceLocation i).referenceTraceLen = b.extra[i + 7]? := rfl
  unfold ErrorBundle.getReferenceTraces
  rw [hn]
  cases h : b.extra[i + 7]? with
  | none => simp
  | some n => simpa using jsSubarray_natCast b.extra (i + 8) n

/-!
## Claim theorems: the decoder
-/

/-- C6: `errorMessageCount` is 0 when the extra buffer is empty — including
on a bundle constructed with no buffers assigned, which does not fail — and
otherwise is the root list's `len`, the word at extra index 0. -/
theorem c6_error_message_count :
    (ErrorBundle.new none none).errorMessageCount = 0 ∧
    (∀ b : ErrorBundle, b.extra.length = 0 → b.errorMessageCount = 0) ∧
    (∀ b : ErrorBundle, b.extra.length ≠ 0 → b.extra[0]? = some b.errorMessageCount) := by
  refine ⟨rfl, fun b h => by simp [ErrorBundle.errorMessageCount, h], fun b h => ?_⟩
  have h0 : 0 < b.extra.length := Nat.pos_of_ne_zero h
  rw [List.getElem?_eq_getElem h0]
  simp [ErrorBundle.errorMessageCount, ErrorBundle.getErrorMessageList, h,
    List.getElem?_eq_getElem h0]

/-- Witness for C6 at concrete bundles. -/
theorem c6_error_message_count_witness :
    (ErrorBundle.mk [] []).errorMessageCount = 0 ∧
    (ErrorBundle.mk [] [3, 4, 0]).extra[0]? =
      some (ErrorBundle.mk [] [3, 4, 0]).errorMessageCount :=
  ⟨c6_error_message_count.2.1 _ (by decide), c6_error_message_count.2.2 _ (by decide)⟩

/-- C7: a message whose `srcLoc` word (at `index + 2`) is 0 decodes with no
source location present, and a source location whose `sourceLine` word (at
`index + 6`) is 0 decodes with no embedded source line. -/
theorem c7_absent_optional_convention :
    ∀ (b : ErrorBundle) (i : Nat),
      (b.extra[i + 2]? = some 0 → (b.getErrorMessage i).srcLoc = none) ∧
      (b.extra[i + 6]? = some 0 → (b.getSourceLocation i).sourceLine = none) := by
  intro b i
  exact ⟨fun h => by simp [ErrorBundle.getErrorMessage, h],
    fun h => by simp [ErrorBundle.getSourceLocation, h]⟩

/-- Witness for C7 at a concrete bundle with both zero words. -/
theorem c7_absent_optional_convention_witness :
    ((ErrorBundle.mk [] [9, 1, 0, 0, 0, 0, 0, 0]).getErrorMessage 0).srcLoc = none ∧
    ((ErrorBundle.mk [] [9, 1, 0, 0, 0, 0, 0, 0]).getSourceLocation 0).sourceLine = none :=
  ⟨(c7_absent_optional_convention (ErrorBundle.mk [] [9, 1, 0, 0, 0, 0, 0, 0]) 0).1 (by decide),
   (c7_absent_optional_convention (ErrorBundle.mk [] [9, 1, 0, 0, 0, 0, 0, 0]) 0).2 (by decide)⟩

/-- C8: for a well-formed record whose trailing run lies within the extra
buffer, `getNotes` returns exactly the `notesLen` words following the
message's four fixed fields, and `getReferenceTraces` returns exactly the
`referenceTraceLen` words following the location's eight fixed fields, in
stored order. -/
theorem c8_count_integrity :
    ∀ (b : ErrorBundle) (i n : Nat),
      (b.extra[i + 3]? = some n → i + 4 + n ≤ b.extra.length →
        b.getNotes i = (b.extra.drop (i + 4)).take n ∧ (b.getNotes i).length = n) ∧
      (b.extra[i + 7]? = some n → i + 8 + n ≤ b.extra.length →
        b.getReferenceTraces i = (b.extra.drop (i + 8)).take n ∧
          (b.getReferenceTraces i).length = n) := by
  intro b i n
  constructor
  · intro h hle
    have he : b.getNotes i = (b.extra.drop (i + 4)).take n := by
      rw [getNotes_eq, h]; rfl
    refine ⟨he, ?_⟩
    rw [he]
    simp only [List.length_take, List.length_drop]
    omega
  · intro h hle
    have he : b.getReferenceTraces i = (b.extra.drop (i + 8)).take n := by
      rw [getReferenceTraces_eq, h]; rfl
    refine ⟨he, ?_⟩
    rw [he]
    simp only [List.length_take, List.length_drop]
    omega

/-- Witness for C8 at concrete well-formed records. -/
theorem c8_count_integrity_witness :
    ((ErrorBundle.mk [] [0, 0, 0, 2, 7, 8]).getNotes 0 =
        ((ErrorBundle.mk [] [0, 0, 0, 2, 7, 8]).extra.drop (0 + 4)).take 2 ∧
      ((ErrorBundle.mk [] [0, 0, 0, 2, 7, 8]).getNotes 0).length = 2) ∧
    ((ErrorBundle.mk [] [0, 0, 0, 0, 0, 0, 0, 1, 42]).getReferenceTraces 0 =
        ((ErrorBundle.mk [] [0, 0, 0, 0, 0, 0, 0, 1, 42]).extra.drop (0 + 8)).take 1 ∧
      ((ErrorBundle.mk [] [0, 0, 0, 0, 0, 0, 0, 1, 42]).getReferenceTraces 0).length = 1) :=
  ⟨(c8_count_integrity (ErrorBundle.mk [] [0, 0, 0, 2, 7, 8]) 0 2).1
      (by decide) (by decide),
   (c8_count_integrity (ErrorBundle.mk [] [0, 0, 0, 0, 0, 0, 0, 1, 42]) 0 1).2
      (by decide) (by decide)⟩

/-- C10: for every extra buffer and every index, `getNotes` and
`getReferenceTraces` return the declared trailing run truncated to the
buffer's end (so they never read outside the buffer and never fail), and
the returned length is the minimum of the declared count and the words
remaining after the record's fixed fields. -/
theorem c10_truncated_trailing_runs :
    ∀ (b : ErrorBundle) (i : Nat),
      b.getNotes i = (b.extra.drop (i + 4)).take ((b.extra[i + 3]?).getD 0) ∧
      (b.getNotes i).length =
        min ((b.extra[i + 3]?).getD 0) (b.extra.length - (i + 4)) ∧
      b.getReferenceTraces i = (b.extra.drop (i + 8)).take ((b.extra[i + 7]?).getD 0) ∧
      (b.getReferenceTraces i).length =
        min ((b.extra[i + 7]?).getD 0) (b.extra.length - (i + 8)) := by
  intro b i
  refine ⟨getNotes_eq b i, ?_, getReferenceTraces_eq b i, ?_⟩
  · rw [getNotes_eq b i]
    simp [List.length_take, List.length_drop]
  · rw [getReferenceTraces_eq b i]
    simp [List.length_take, List.length_drop]

/-- C2: the source computes `afterCaret = Math.min(0, spanEnd - spanMain - 1)`
(a cap at zero, not a floor), so whenever `spanEnd ≤ spanMain` the count is
negative and the tilde repeat throws a `RangeError` (`none` here), and even
for a wide span (`spanEnd = 5` below) no post-caret tilde is ever emitted —
refuting "floored at zero, never negative repeat counts". -/
theorem c2_caret_negative_repeat :
    renderCaretLine 0 0 0 0 = none ∧ renderCaretLine 0 0 0 5 = some "^\n" := by
  constructor <;> rfl

/-- C3: a reference-trace record whose second word is 0 does decode as a
hidden-references sentinel (first conjunct, at a record `[5, 0]` declaring
5 hidden references in its first word), but the decoder copies the `srcLoc`
word — which is 0 in that branch — into `hiddenReferences`, so the count is
always 0 and can never be the positive count the record carries. -/
theorem c3_sentinel_count_always_zero :
    (ErrorBundle.mk [] [5, 0]).getReferenceTrace 0 = ReferenceTrace.sentinel 0 ∧
    ∀ (b : ErrorBundle) (i : Nat),
      (b.getReferenceTrace i).hiddenCount = none ∨
        (b.getReferenceTrace i).hiddenCount = some 0 := by
  refine ⟨rfl, fun b i => ?_⟩
  unfold ErrorBundle.getReferenceTrace
  by_cases h : b.extra[i + 1]? = some 0 <;> simp [h, ReferenceTrace.hiddenCount]

/-- C4 (counterexample): on a string storage whose byte 0 is not the null
terminator, looking up string index 0 returns that leading text, not empty
text — here storage `[65, 0]` yields `"A"` (byte 65), both directly and
through `getCompileLogOutput` with `compileLogText = 0`. -/
theorem c4_counterexample :
    (ErrorBundle.mk [65, 0] [0, 0, 0]).nullTerminatedString 0 = [65] ∧
    (ErrorBundle.mk [65, 0] [0, 0, 0]).getCompileLogOutput = [65] ∧
    ((ErrorBundle.mk [65, 0] [0, 0, 0]).nullTerminatedString 0).length = 1 := by
  refine ⟨rfl, rfl, rfl⟩

/-- C4 (amended): for every string storage that honors the "0 = absent"
convention (the storage is empty or its byte 0 is the null terminator),
looking up string index 0 returns empty text; in particular
`getCompileLogOutput` is empty whenever the root list's `compileLogText`
word is 0. -/
theorem c4_absent_string_lookup (b : ErrorBundle)
    (h : b.stringBytes = [] ∨ b.stringBytes[0]? = some 0) :
    b.nullTerminatedString 0 = [] ∧
    (b.extra[2]? = some 0 → b.getCompileLogOutput = []) := by
  have key : b.nullTerminatedString 0 = [] := by
    rcases h with h | h
    · simp [ErrorBundle.nullTerminatedString, jsIndexOf, jsSubarray, h]
    · obtain ⟨tl, htl⟩ : ∃ tl, b.stringBytes = 0 :: tl := by
        cases hs : b.stringBytes with
        | nil => rw [hs] at h; simp at h
        | cons a tl =>
          rw [hs] at h
          simp at h
          exact ⟨tl, by rw [h]⟩
      simp [ErrorBundle.nullTerminatedString, jsIndexOf, jsSubarray, htl]
  refine ⟨key, fun h2 => ?_⟩
  simpa [ErrorBundle.getCompileLogOutput, ErrorBundle.getErrorMessageList, h2] using key

/-- Witness for the amended C4 at a conventional storage. -/
theorem c4_absent_string_lookup_witness :
    (ErrorBundle.mk [0, 65] [0, 0, 0]).nullTerminatedString 0 = [] ∧
    (ErrorBundle.mk [0, 65] [0, 0, 0]).getCompileLogOutput = [] :=
  ⟨(c4_absent_string_lookup (ErrorBundle.mk [0, 65] [0, 0, 0]) (Or.inr (by decide))).1,
   (c4_absent_string_lookup (ErrorBundle.mk [0, 65] [0, 0, 0]) (Or.inr (by decide))).2
      (by decide)⟩

/-!
## Helper lemmas: the protocol client
-/

lemma readU32_some_length {l : List Nat} {k v : Nat} (h : readU32 l k = some v) :
    k + 4 ≤ l.length := by
  unfold readU32 at h
  split at h
  · next b0 b1 b2 b3 rest heq =>
      have hlen := congrArg List.length heq
      simp [List.length_drop] at hlen
      omega
  · exact absurd h (by simp)

lemma readU32_u32le_zero (t : Nat) (rest : List Nat) :
    readU32 (u32le t ++ rest) 0 = some (t % 4294967296) := by
  have h : readU32 (u32le t ++ rest) 0 =
      some (t % 256 + 256 * (t / 256 % 256) + 65536 * (t / 65536 % 256) +
        16777216 * (t / 16777216 % 256)) := rfl
  rw [h]
  exact congrArg some (by omega)

lemma readU32_u32le_four (t n : Nat) (rest : List Nat) :
    readU32 (u32le t ++ (u32le n ++ rest)) 4 = some (n % 4294967296) := by
  have h : readU32 (u32le t ++ (u32le n ++ rest)) 4 =
      some (n % 256 + 256 * (n / 256 % 256) + 65536 * (n / 65536 % 256) +
        16777216 * (n / 16777216 % 256)) := rfl
  rw [h]
  exact congrArg some (by omega)

lemma encodeFrame_length (tag : Nat) (payload : List Nat) :
    (encodeFrame tag payload).length = 8 + payload.length := by
  simp [encodeFrame, u32le]
  omega

/-- Applying the data handler, in a not-yet-thrown state with an empty
buffer, to a chunk holding exactly one complete frame: the header is parsed
back and the full payload dispatched. -/
lemma handleData_encodeFrame (st : ServeState) (tag : Nat) (payload : List Nat)
    (hth : st.threw = false) (hbuf : st.dataBuffer = [])
    (ht : tag < 4294967296) (hp : payload.length < 4294967296) :
    handleData st (encodeFrame tag payload) =
      dispatchFrame { st with dataBuffer := [] } payload.length tag payload := by
  have hassoc : encodeFrame tag payload = u32le tag ++ (u32le payload.length ++ payload) := by
    simp [encodeFrame, List.append_assoc]
  have h0 : readU32 (encodeFrame tag payload) 0 = some tag := by
    rw [hassoc, readU32_u32le_zero, Nat.mod_eq_of_lt ht]
  have h4 : readU32 (encodeFrame tag payload) 4 = some payload.length := by
    rw [hassoc, readU32_u32le_four, Nat.mod_eq_of_lt hp]
  have hdrop8 : (encodeFrame tag payload).drop 8 = payload := by
    rw [hassoc]; rfl
  have hdropAll : (encodeFrame tag payload).drop (8 + payload.length) = [] :=
    List.drop_eq_nil_of_le (le_of_eq (encodeFrame_length tag payload))
  unfold handleData
  rw [hth]
  simp only [Bool.false_eq_true, if_false, hbuf, List.nil_append]
  rw [if_pos (by rw [encodeFrame_length]; omega)]
  rw [h0, h4, hdrop8]
  simp only [Option.getD_some, List.take_length, hdropAll]

/-!
## Claim theorems: the protocol client
-/

/-- C9: a complete tag-3 (artifact path) frame fed as one chunk resolves
the session with `Success` whose path is the payload minus its first
(sub-tag) byte. -/
theorem c9_tag3_artifact_path (payload : List Nat) (hp : payload.length < 4294967296) :
    (feedChunks [encodeFrame 3 payload]).settled =
      some (Settle.success (payload.drop 1)) := by
  have hfeed : feedChunks [encodeFrame 3 payload] =
      handleData initState (encodeFrame 3 payload) := rfl
  rw [hfeed, handleData_encodeFrame initState 3 payload rfl rfl (by omega) hp]
  rfl

/-- Witness for C9: payload `[0x00, 'b', 'i', 'n']` resolves
`Success{artifactPath = "bin"}` (bytes `[98, 105, 110]`). -/
theorem c9_tag3_artifact_path_witness :
    (feedChunks [encodeFrame 3 [0, 98, 105, 110]]).settled =
      some (Settle.success [98, 105, 110]) :=
  c9_tag3_artifact_path [0, 98, 105, 110] (by decide)

/-- C5: a complete tag-1 (error bundle) frame whose declared length does
not equal `8 + 4*extraWordCount + stringByteCount` rejects the session with
the data-mismatch error, and one whose payload is shorter than 8 bytes
rejects with the insufficient-size error. -/
theorem c5_bundle_length_validation (payload : List Nat) (E S : Nat) :
    (readU32 payload 0 = some E → readU32 payload 4 = some S →
      payload.length < 4294967296 → payload.length ≠ 8 + 4 * E + S →
      (feedChunks [encodeFrame 1 payload]).settled =
        some (Settle.rejected RejectReason.dataMismatch)) ∧
    (payload.length < 8 →
      (feedChunks [encodeFrame 1 payload]).settled =
        some (Settle.rejected RejectReason.insufficientSize)) := by
  constructor
  · intro h0 h4 hlt hne
    have hge : 8 ≤ payload.length := by
      have := readU32_some_length h4
      omega
    have hfeed : feedChunks [encodeFrame 1 payload] =
        handleData initState (encodeFrame 1 payload) := rfl
    rw [hfeed, handleData_encodeFrame initState 1 payload rfl rfl (by omega) hlt]
    simp only [dispatchFrame]
    rw [if_neg (Nat.not_lt.mpr hge), h0, h4]
    simp only [Option.getD_some]
    rw [if_pos hne]
    rfl
  · intro h8
    have hfeed : feedChunks [encodeFrame 1 payload] =
        handleData initState (encodeFrame 1 payload) := rfl
    rw [hfeed, handleData_encodeFrame initState 1 payload rfl rfl (by omega) (by omega)]
    simp only [dispatchFrame]
    rw [if_pos h8]
    rfl

/-- Witness for C5: a 9-byte payload declaring `extraWordCount = 1`,
`stringByteCount = 0` (so the length should be 12) is rejected as a
mismatch, and a 1-byte payload is rejected as too small. -/
theorem c5_bundle_length_validation_witness :
    (feedChunks [encodeFrame 1 [1, 0, 0, 0, 0, 0, 0, 0, 99]]).settled =
      some (Settle.rejected RejectReason.dataMismatch) ∧
    (feedChunks [encodeFrame 1 [7]]).settled =
      some (Settle.rejected RejectReason.insufficientSize) :=
  ⟨(c5_bundle_length_validation [1, 0, 0, 0, 0, 0, 0, 0, 99] 1 0).1
      (by decide) (by decide) (by decide) (by decide),
   (c5_bundle_length_validation [7] 0 0).2 (by decide)⟩

/-- C1: frame reassembly is NOT chunk-invariant. The same tag-3 frame fed
whole resolves `Success` with path `"bin"`, but fed split after the 8
header bytes resolves `Success` with the empty path, because the handler
dispatches as soon as 8 header bytes are buffered, using the truncated
payload. Moreover two complete frames in one chunk leave the second frame
undispatched (`settled = none`) — the handler strips at most one frame per
`"data"` event — while the same two frames in two chunks resolve. -/
theorem c1_chunking_not_invariant :
    (feedChunks [encodeFrame 3 [0, 98, 105, 110]]).settled =
      some (Settle.success [98, 105, 110]) ∧
    (feedChunks [(encodeFrame 3 [0, 98, 105, 110]).take 8,
        (encodeFrame 3 [0, 98, 105, 110]).drop 8]).settled =
      some (Settle.success []) ∧
    (feedChunks [encodeFrame 0 [] ++ encodeFrame 3 [0, 98, 105, 110]]).settled = none ∧
    (feedChunks [encodeFrame 0 [], encodeFrame 3 [0, 98, 105, 110]]).settled =
      some (Settle.success [98, 105, 110]) := by
  refine ⟨rfl, rfl, rfl, rfl⟩
